import Mathlib

/-!
Verification development for a small HTTP aggregation service written in Go
(three endpoints: status, country info, exchange-rate composition), shallowly
embedded in Lean.  Outbound HTTP calls are modelled by oracle functions from
the request key (the country code, the base currency, or the probe URL) to an
abstract HTTP outcome; handlers additionally return the list of upstream calls
they issued, so that claims of the form "no upstream call is made" are
expressible.  Go byte strings are modelled by Lean String; Go len on a string
is UTF-8 byte length, modelled by String.utf8ByteSize.  Go float64 values are
only carried around, never computed with, and are modelled by Rat.
-/

namespace CountryInfo

/-- Version constant of the service (Go constant version). -/
def version : String := "v1"

/-- Base URL of the country-data provider (Go constant countriesBaseURL). -/
def countriesBaseURL : String := "http://129.241.150.113:8080/v3.1"

/-- Base URL of the currency-rate provider (Go constant currencyBaseURL). -/
def currencyBaseURL : String := "http://129.241.150.113:9090/currency"

/-- Whitespace predicate of Go strings.TrimSpace (ASCII space characters plus
NEL and NBSP; the rare astral Unicode space classes are not modelled). -/
def isGoSpace (c : Char) : Bool :=
  c == ' ' || c == '\t' || c == '\n' || c == '\x0b' || c == '\x0c' ||
    c == '\r' || c == '\x85' || c == '\xa0'

/-- Go strings.TrimSpace: remove leading and trailing whitespace. -/
def trimSpace (s : String) : String :=
  ⟨((s.data.dropWhile isGoSpace).reverse.dropWhile isGoSpace).reverse⟩

/-- Go strings.ToLower, character by character (ASCII case table; codepoints
without an ASCII case mapping are kept as they are). -/
def toLowerStr (s : String) : String :=
  ⟨s.data.map Char.toLower⟩

/-- Go strings.ToUpper, character by character (ASCII case table; codepoints
without an ASCII case mapping are kept as they are). -/
def toUpperStr (s : String) : String :=
  ⟨s.data.map Char.toUpper⟩

/-- Go function normalizeISO2: trim whitespace, then lowercase. -/
def normalizeISO2 (code : String) : String :=
  toLowerStr (trimSpace code)

/-- Go function validISO2: the byte length must be exactly 2 (Go len) and
every rune must lie in the ASCII range a..z. -/
def validISO2 (code : String) : Bool :=
  if code.utf8ByteSize ≠ 2 then false
  else code.data.all (fun ch => decide ('a' ≤ ch) && decide (ch ≤ 'z'))

/-- Outcome of one outbound HTTP GET: either a transport-level failure
(timeout, connection error) or a response with a status code and a body. -/
inductive HTTPResult (β : Type) where
  | transportError : HTTPResult β
  | response (status : Nat) (body : β) : HTTPResult β
deriving DecidableEq

/-- Go struct countriesName (field Name.Common of the upstream record). -/
structure countriesName where
  common : String
deriving DecidableEq

/-- Go struct countriesFlags. -/
structure countriesFlags where
  png : String
  svg : String
deriving DecidableEq

/-- Go struct countriesCountry.  The currencies field of the Go struct is a
map from currency-code keys to opaque raw JSON; only the keys are ever read,
so it is modelled by its list of keys.  The languages map is modelled as an
association list. -/
structure countriesCountry where
  name : countriesName
  continents : List String
  population : Int
  area : Rat
  languages : List (String × String)
  borders : List String
  flags : countriesFlags
  capital : List String
  currencies : List String
deriving DecidableEq

/-- Decoded shape of the body of a 200 response of the country provider:
a JSON array of country objects, a single country object, a body that is not
valid JSON (the decoder step fails), or valid JSON of neither shape. -/
inductive CountryBody where
  | arr (cs : List countriesCountry) : CountryBody
  | obj (c : countriesCountry) : CountryBody
  | invalidJSON : CountryBody
  | otherJSON : CountryBody
deriving DecidableEq

/-- Which error a fetch produced (Go only tests the error for nil, but the
three sources are distinct in the source text: the transport error of Get,
the JSON decoder error, and the explicit unexpected-shape error). -/
inductive FetchErr where
  | transport : FetchErr
  | decode : FetchErr
  | shape : FetchErr
deriving DecidableEq

/-- Return value of Go fetchCountryAlpha: the triple
(country pointer, HTTP status, error). -/
structure FetchCountryReturn where
  country : Option countriesCountry
  status : Nat
  err : Option FetchErr
deriving DecidableEq

/-- Go function fetchCountryAlpha, with the HTTP GET on
countriesBaseURL/alpha/code abstracted by the oracle get applied to code.
Mirrors the source: a transport error is returned as is; a non-200 status is
returned with a nil country and nil error; on 200 the body is decoded and then
unmarshalled ONLY as an array of countries, and the first element is returned
when that array is non-empty; every other body (a single object included, the
Go code never tries the object shape despite its comment) yields the
unexpected-shape error with status 0. -/
def fetchCountryAlpha (get : String → HTTPResult CountryBody) (code : String) :
    FetchCountryReturn :=
  match get code with
  | .transportError => ⟨none, 0, some .transport⟩
  | .response st body =>
    if st ≠ 200 then ⟨none, st, none⟩
    else
      match body with
      | .invalidJSON => ⟨none, 0, some .decode⟩
      | .arr (c :: _) => ⟨some c, 200, none⟩
      | .arr [] => ⟨none, 0, some .shape⟩
      | .obj _ => ⟨none, 0, some .shape⟩
      | .otherJSON => ⟨none, 0, some .shape⟩

/-- Boolean lexicographic less-or-equal on char lists, comparing codepoints;
this is the order Go sort.Strings sorts by (UTF-8 byte order and codepoint
order coincide). -/
def lexLe : List Char → List Char → Bool
  | [], _ => true
  | _ :: _, [] => false
  | a :: as, b :: bs => if a < b then true else if b < a then false else lexLe as bs

/-- Boolean lexicographic less-or-equal on strings. -/
def strLe (a b : String) : Bool := lexLe a.data b.data

/-- The lexicographic order on strings as a proposition (proved below to be
the standard linear order on String). -/
def strLeP (a b : String) : Prop := strLe a b = true

instance : DecidableRel strLeP :=
  fun a b => inferInstanceAs (Decidable (strLe a b = true))

/-- Go function firstCurrencyCodeSorted: sort the currency-map keys ascending
(Go sort.Strings sorts by byte order, which coincides with codepoint order;
for a total order the sorted list is unique, so insertion sort gives the same
list as the Go sort) and return the first, or the empty string when there are
no keys.  The key set of the Go map is modelled as a list; sorting makes the
iteration order of the map irrelevant. -/
def firstCurrencyCodeSorted (m : List String) : String :=
  match List.insertionSort strLeP m with
  | [] => ""
  | k :: _ => k

/-- Go struct infoResponse. -/
structure infoResponse where
  name : String
  continents : List String
  population : Int
  area : Rat
  languages : List (String × String)
  borders : List String
  flag : String
  capital : String
deriving DecidableEq

/-- Go struct statusResponse. -/
structure statusResponse where
  restcountriesapi : Nat
  currenciesapi : Nat
  version : String
  uptime : Int
deriving DecidableEq

/-- Go struct exchangeResponse.  The exchange-rates JSON object is modelled as
an association list from currency code to rate. -/
structure exchangeResponse where
  country : String
  baseCurrency : String
  exchangeRates : List (String × Rat)
deriving DecidableEq

/-- Body of a response written by the service: either the errResp error
object, or one of the three success shapes. -/
inductive HttpBody where
  | errorBody (msg : String) : HttpBody
  | info (r : infoResponse) : HttpBody
  | exchange (r : exchangeResponse) : HttpBody
  | statusB (r : statusResponse) : HttpBody
deriving DecidableEq

/-- One written HTTP response: status code and JSON body. -/
structure HttpOut where
  status : Nat
  body : HttpBody
deriving DecidableEq

/-- Go writeJSONError: status code together with an errResp body. -/
def writeJSONError (status : Nat) (msg : String) : HttpOut :=
  ⟨status, .errorBody msg⟩

/-- One outbound call issued by a handler, recorded for call-trace claims. -/
inductive UpstreamCall where
  | countryAlpha (code : String) : UpstreamCall
  | rates (base : String) : UpstreamCall
deriving DecidableEq

/-- Whether an upstream call is a rate-provider call. -/
def UpstreamCall.isRates : UpstreamCall → Bool
  | .rates _ => true
  | .countryAlpha _ => false

/-- Go strings.TrimPrefix as used to read the path parameter: drop the
leading route when present, otherwise return the path unchanged (the routes
are ASCII, so byte positions and character positions coincide). -/
def stripRoute (path route : String) : String :=
  if route.data.isPrefixOf path.data then ⟨path.data.drop route.data.length⟩
  else path

/-- Route of the info endpoint. -/
def infoRoute : String := "/countryinfo/v1/info/"

/-- Route of the exchange endpoint. -/
def exchangeRoute : String := "/countryinfo/v1/exchange/"

/-- Go struct upstreamCurrencyResponse: the result marker and the rates map,
the latter modelled as an association list from currency code to rate. -/
structure upstreamCurrencyResponse where
  result : String
  rates : List (String × Rat)
deriving DecidableEq

/-- Decoded shape of the body of a 200 response of the rate provider: either
it decodes into upstreamCurrencyResponse (any JSON object does, absent fields
becoming zero values) or the decoder fails. -/
inductive RatesBody where
  | parsed (r : upstreamCurrencyResponse) : RatesBody
  | invalidJSON : RatesBody
deriving DecidableEq

/-- Return value of Go fetchRates: the triple (response pointer, HTTP status,
error), with the error modelled by a Bool since only its nil-ness is read. -/
structure FetchRatesReturn where
  resp : Option upstreamCurrencyResponse
  status : Nat
  err : Bool
deriving DecidableEq

/-- Go function fetchRates, with the HTTP GET on currencyBaseURL/base
abstracted by the oracle get applied to base. -/
def fetchRates (get : String → HTTPResult RatesBody) (base : String) :
    FetchRatesReturn :=
  match get base with
  | .transportError => ⟨none, 0, true⟩
  | .response st body =>
    if st ≠ 200 then ⟨none, st, false⟩
    else
      match body with
      | .invalidJSON => ⟨none, 0, true⟩
      | .parsed r => ⟨some r, 200, false⟩

/-- Both upstream oracles, keyed by the code or base-currency path segment of
the URL the Go code builds. -/
structure Upstream where
  getCountry : String → HTTPResult CountryBody
  getRates : String → HTTPResult RatesBody

/-- Projection step of Go InfoHandler: capital is the first entry of the
capital list or the empty string, the flag URL prefers the raster (png) URL
and falls back to the vector (svg) URL. -/
def infoOf (c : countriesCountry) : infoResponse :=
  { name := c.name.common
    continents := c.continents
    population := c.population
    area := c.area
    languages := c.languages
    borders := c.borders
    flag := if c.flags.png = "" then c.flags.svg else c.flags.png
    capital := match c.capital with
      | [] => ""
      | x :: _ => x }

/-- Go function InfoHandler.  Returns the written response together with the
list of upstream calls issued.  The guard ordering mirrors the source: method
check, path-parameter normalization and validation, fetch, then in order the
error-nil check, the 404-or-nil-country check, and the non-200 check (the
last is unreachable for outputs of fetchCountryAlpha and kept only because
the source has it).  The final none arm is dead code: Go would dereference a
nil pointer there. -/
def InfoHandler (up : Upstream) (method path : String) :
    HttpOut × List UpstreamCall :=
  if method ≠ "GET" then (writeJSONError 405 "method not allowed", [])
  else
    let code := normalizeISO2 (stripRoute path infoRoute)
    if ¬ validISO2 code then
      (writeJSONError 400
        "two_letter_country_code must be 2 letters (ISO 3166-2), e.g. /countryinfo/v1/info/no", [])
    else
      let r := fetchCountryAlpha up.getCountry code
      let calls := [UpstreamCall.countryAlpha code]
      if r.err.isSome then
        (writeJSONError 502 "failed to call countries service", calls)
      else if r.status = 404 ∨ r.country = none then
        (writeJSONError 404 "country not found", calls)
      else if r.status ≠ 200 then
        (writeJSONError 502 "countries service returned non-200", calls)
      else
        match r.country with
        | some c => (⟨200, .info (infoOf c)⟩, calls)
        | none => (writeJSONError 500 "unreachable: nil country", calls)

/-- Neighbour fan-out loop of Go ExchangeHandler (step 3): walk the border
codes in order; skip entries that trim to the empty string; fetch each
neighbour, aborting the whole walk on a fetch error or on a non-200 status or
nil record; compute the neighbour base currency, skip it when malformed (not
3 bytes) or equal to the input base currency, and otherwise add it to the
accumulated set (the Go set is a map with unit values, modelled as a
duplicate-free list in insertion order).  Also returns the calls issued. -/
def collectNeighbourCurrencies (get : String → HTTPResult CountryBody)
    (base : String) :
    List String → List String → Except String (List String) × List UpstreamCall
  | [], acc => (.ok acc, [])
  | cca3 :: rest, acc =>
    let c := trimSpace cca3
    if c = "" then collectNeighbourCurrencies get base rest acc
    else
      let r := fetchCountryAlpha get c
      if r.err.isSome then
        (.error "failed to call countries service for neighbours",
          [UpstreamCall.countryAlpha c])
      else
        match r.country with
        | none =>
          (.error "countries service failed neighbour lookup",
            [UpstreamCall.countryAlpha c])
        | some nc =>
          if r.status ≠ 200 then
            (.error "countries service failed neighbour lookup",
              [UpstreamCall.countryAlpha c])
          else
            let ccy := toUpperStr (firstCurrencyCodeSorted nc.currencies)
            let acc2 :=
              if ccy = "" ∨ ccy.utf8ByteSize ≠ 3 then acc
              else if ccy = base then acc
              else if ccy ∈ acc then acc else acc ++ [ccy]
            let res := collectNeighbourCurrencies get base rest acc2
            (res.1, UpstreamCall.countryAlpha c :: res.2)

/-- Go function ExchangeHandler.  Returns the written response together with
the list of upstream calls issued, mirroring the source step by step: method
check, validation, input-country fetch with the same guard ordering as
InfoHandler, base-currency selection and malformedness check, neighbour
fan-out, the empty-set early success, the single rate fetch with its three
guards, and the final filtering of the rate map to the neighbour set. -/
def ExchangeHandler (up : Upstream) (method path : String) :
    HttpOut × List UpstreamCall :=
  if method ≠ "GET" then (writeJSONError 405 "method not allowed", [])
  else
    let code := normalizeISO2 (stripRoute path exchangeRoute)
    if ¬ validISO2 code then
      (writeJSONError 400
        "two_letter_country_code must be 2 letters (ISO 3166-2), e.g. /countryinfo/v1/exchange/no", [])
    else
      let r := fetchCountryAlpha up.getCountry code
      let calls0 := [UpstreamCall.countryAlpha code]
      if r.err.isSome then
        (writeJSONError 502 "failed to call countries service", calls0)
      else if r.status = 404 ∨ r.country = none then
        (writeJSONError 404 "country not found", calls0)
      else if r.status ≠ 200 then
        (writeJSONError 502 "countries service returned non-200", calls0)
      else
        match r.country with
        | none => (writeJSONError 500 "unreachable: nil country", calls0)
        | some input =>
          let base := toUpperStr (firstCurrencyCodeSorted input.currencies)
          if base = "" ∨ base.utf8ByteSize ≠ 3 then
            (writeJSONError 502 "input country has no valid currency", calls0)
          else
            let collected :=
              collectNeighbourCurrencies up.getCountry base input.borders []
            match collected.1 with
            | .error msg => (writeJSONError 502 msg, calls0 ++ collected.2)
            | .ok neigh =>
              if neigh = [] then
                (⟨200, .exchange ⟨input.name.common, base, []⟩⟩,
                  calls0 ++ collected.2)
              else
                let rr := fetchRates up.getRates base
                let calls := calls0 ++ collected.2 ++ [UpstreamCall.rates base]
                if rr.err then
                  (writeJSONError 502 "failed to call currency service", calls)
                else if rr.status ≠ 200 ∨ rr.resp = none then
                  (writeJSONError 502 "currency service returned non-200", calls)
                else
                  match rr.resp with
                  | none =>
                    (writeJSONError 500 "unreachable: nil rates", calls)
                  | some ratesResp =>
                    if ratesResp.result ≠ "" ∧ ratesResp.result ≠ "success" then
                      (writeJSONError 502
                        "currency service returned result != success", calls)
                    else
                      let outRates := neigh.filterMap fun ccy =>
                        (ratesResp.rates.lookup ccy).map fun v => (ccy, v)
                      (⟨200, .exchange ⟨input.name.common, base, outRates⟩⟩,
                        calls)

/-- Go function probeHTTP: a transport error is reported as the bad-gateway
code 502, otherwise the probe reports the status code of the response. -/
def probeHTTP (get : String → HTTPResult Unit) (url : String) : Nat :=
  match get url with
  | .transportError => 502
  | .response st _ => st

/-- Probe URL of the country provider used by the status endpoint. -/
def countriesProbeURL : String := countriesBaseURL ++ "/alpha/no"

/-- Probe URL of the rate provider used by the status endpoint. -/
def currencyProbeURL : String := currencyBaseURL ++ "/NOK"

/-- Go function StatusHandler, with the two outbound probes abstracted by the
oracle get keyed on the probe URL and the wall-clock uptime (whole seconds
since process start) passed in as a parameter. -/
def StatusHandler (get : String → HTTPResult Unit) (method : String)
    (uptime : Int) : HttpOut :=
  if method ≠ "GET" then writeJSONError 405 "method not allowed"
  else
    let restStatus := probeHTTP get countriesProbeURL
    let currStatus := probeHTTP get currencyProbeURL
    let overall := if restStatus ≠ 200 ∨ currStatus ≠ 200 then 502 else 200
    ⟨overall, .statusB ⟨restStatus, currStatus, version, uptime⟩⟩

/-- Failure of a single neighbour lookup as seen on the wire: the GET for the
(trimmed) border code either fails at the transport level or completes with a
non-200 status. -/
def neighbourLookupFails (get : String → HTTPResult CountryBody) (b : String) :
    Prop :=
  get b = .transportError ∨ ∃ st body, get b = .response st body ∧ st ≠ 200

/-! ### Concrete sample data for closed instantiations -/

/-- Sample input country mirroring the test vignette of the spec: Norway,
currency NOK, three borders. -/
def sampleNorway : countriesCountry :=
  { name := ⟨"Norway"⟩
    continents := ["Europe"]
    population := 5379475
    area := 323802
    languages := [("nno", "Norwegian Nynorsk")]
    borders := ["SWE", "FIN", "RUS"]
    flags := ⟨"https://flags/no.png", "https://flags/no.svg"⟩
    capital := ["Oslo"]
    currencies := ["NOK"] }

/-- Sample neighbour with currency SEK and no borders. -/
def sampleSweden : countriesCountry :=
  { sampleNorway with name := ⟨"Sweden"⟩, borders := [], currencies := ["SEK"] }

/-- Sample neighbour with currency EUR and no borders. -/
def sampleFinland : countriesCountry :=
  { sampleNorway with name := ⟨"Finland"⟩, borders := [], currencies := ["EUR"] }

/-- Sample neighbour with currency RUB and no borders. -/
def sampleRussia : countriesCountry :=
  { sampleNorway with name := ⟨"Russia"⟩, borders := [], currencies := ["RUB"] }

/-- Sample country whose only currency key is the 3-byte string a1b, which
uppercases to A1B: 3 bytes long but not made of letters. -/
def sampleOddCurrency : countriesCountry :=
  { sampleNorway with name := ⟨"Oddland"⟩, borders := [], currencies := ["a1b"] }

/-- Country oracle resolving the sample countries (no by ISO2, the three
neighbours by cca3) and answering 404 for anything else. -/
def sampleCountryOracle : String → HTTPResult CountryBody := fun c =>
  if c = "no" then .response 200 (.arr [sampleNorway])
  else if c = "se" then .response 200 (.arr [sampleSweden])
  else if c = "SWE" then .response 200 (.arr [sampleSweden])
  else if c = "FIN" then .response 200 (.arr [sampleFinland])
  else if c = "RUS" then .response 200 (.arr [sampleRussia])
  else .response 404 .otherJSON

/-- Rate oracle: NOK resolves to a success rate set quoting SEK and EUR but
not RUB; every other base is a 404. -/
def sampleRatesOracle : String → HTTPResult RatesBody := fun b =>
  if b = "NOK" then
    .response 200 (.parsed ⟨"success", [("SEK", 10), ("EUR", 11)]⟩)
  else .response 404 .invalidJSON

/-- Probe oracle with both upstreams healthy. -/
def probeAllOk : String → HTTPResult Unit := fun _ => .response 200 ()

/-- Country oracle that answers 500 to everything (an upstream error that is
neither 200 nor 404). -/
def oracle500 : String → HTTPResult CountryBody := fun _ => .response 500 .otherJSON

/-- Country oracle that answers 200 with a single-object body. -/
def oracleObj : String → HTTPResult CountryBody := fun _ =>
  .response 200 (.obj sampleNorway)

/-- Country oracle that answers 200 with an empty-array body. -/
def oracleEmptyArr : String → HTTPResult CountryBody := fun _ =>
  .response 200 (.arr [])

/-- Country oracle resolving no to Norway but failing every neighbour lookup
with a transport error. -/
def oracleNeighbourDown : String → HTTPResult CountryBody := fun c =>
  if c = "no" then .response 200 (.arr [sampleNorway])
  else .transportError

/-! ### Lemmas about the embedded string primitives -/

theorem utf8Size_eq_one_of_le_z {c : Char} (h2 : c ≤ 'z') : c.utf8Size = 1 := by
  have hz : 'z'.val ≤ UInt32.ofNatCore 127 Char.utf8Size.proof_1 := by decide
  have hc : c.val ≤ UInt32.ofNatCore 127 Char.utf8Size.proof_1 :=
    UInt32.le_trans (Char.le_def.mp h2) hz
  simp at hc
  simp [Char.utf8Size, hc]

theorem utf8_go_nil : String.utf8ByteSize.go [] = 0 := rfl

theorem utf8_go_cons (c : Char) (cs : List Char) :
    String.utf8ByteSize.go (c :: cs) = String.utf8ByteSize.go cs + c.utf8Size := rfl

theorem utf8_go_eq_length_of_le_z :
    ∀ (l : List Char), (∀ c ∈ l, c ≤ 'z') → String.utf8ByteSize.go l = l.length
  | [], _ => rfl
  | c :: cs, h => by
    rw [utf8_go_cons, utf8_go_eq_length_of_le_z cs (fun x hx => h x (List.mem_cons_of_mem c hx)),
      utf8Size_eq_one_of_le_z (h c (List.mem_cons_self c cs))]
    simp [List.length_cons]

theorem utf8ByteSize_mk (l : List Char) :
    String.utf8ByteSize ⟨l⟩ = String.utf8ByteSize.go l := rfl

/-- Characterization of validISO2: although the Go code measures the length
in bytes (Go len), a string passes the check exactly when it consists of
exactly 2 characters, each in the ASCII range a..z (for such characters a
byte is a character). -/
theorem validISO2_iff (s : String) :
    validISO2 s = true ↔ s.data.length = 2 ∧ ∀ c ∈ s.data, 'a' ≤ c ∧ c ≤ 'z' := by
  unfold validISO2
  have hgo : s.utf8ByteSize = String.utf8ByteSize.go s.data := rfl
  by_cases hb : s.utf8ByteSize = 2
  · rw [if_neg (by simp [hb])]
    simp only [List.all_eq_true, Bool.and_eq_true, decide_eq_true_eq]
    constructor
    · intro h
      refine ⟨?_, h⟩
      have hlen : String.utf8ByteSize.go s.data = s.data.length :=
        utf8_go_eq_length_of_le_z s.data (fun c hc => (h c hc).2)
      rw [← hlen, ← hgo, hb]
    · exact fun h => h.2
  · rw [if_pos hb]
    simp only [Bool.false_eq_true, false_iff, not_and]
    intro hlen2 h
    apply hb
    have hlen : String.utf8ByteSize.go s.data = s.data.length :=
      utf8_go_eq_length_of_le_z s.data (fun c hc => (h c hc).2)
    rw [hgo, hlen, hlen2]

theorem lexLe_iff :
    ∀ (as bs : List Char), lexLe as bs = true ↔ ¬ List.Lex (· < ·) bs as
  | [], bs => by
    simp only [lexLe, true_iff]
    intro h
    cases h
  | a :: as, [] => by
    simp only [lexLe, Bool.false_eq_true, false_iff, not_not]
    exact List.Lex.nil
  | a :: as, b :: bs => by
    simp only [lexLe]
    rcases lt_trichotomy a b with h | h | h
    · rw [if_pos h]
      simp only [true_iff]
      intro hl
      cases hl with
      | cons hl' => exact absurd h (lt_irrefl _)
      | rel hr => exact absurd h (asymm hr)
    · subst h
      rw [if_neg (lt_irrefl a), if_neg (lt_irrefl a)]
      rw [List.Lex.cons_iff]
      exact lexLe_iff as bs
    · rw [if_neg (asymm h), if_pos h]
      simp only [Bool.false_eq_true, false_iff, not_not]
      exact List.Lex.rel h

theorem strLe_iff_le (a b : String) : strLe a b = true ↔ a ≤ b := by
  rw [String.le_iff_toList_le]
  have hnl : (a.toList ≤ b.toList) ↔ ¬ (b.toList < a.toList) := not_lt.symm
  rw [hnl]
  exact lexLe_iff a.data b.data

theorem strLeP_iff_le (a b : String) : strLeP a b ↔ a ≤ b := strLe_iff_le a b

theorem strLeP_total : ∀ (a b : String), strLeP a b ∨ strLeP b a := by
  intro a b
  rcases le_total a b with h | h
  · exact Or.inl ((strLeP_iff_le a b).mpr h)
  · exact Or.inr ((strLeP_iff_le b a).mpr h)

theorem strLeP_trans :
    ∀ (a b c : String), strLeP a b → strLeP b c → strLeP a c := by
  intro a b c hab hbc
  exact (strLeP_iff_le a c).mpr
    (le_trans ((strLeP_iff_le a b).mp hab) ((strLeP_iff_le b c).mp hbc))

/-- The Go function firstCurrencyCodeSorted returns, on a non-empty key list,
a member of the list below every member in the standard lexicographic string
order. -/
theorem firstCurrencyCodeSorted_spec (m : List String) (hm : m ≠ []) :
    firstCurrencyCodeSorted m ∈ m ∧ ∀ k ∈ m, firstCurrencyCodeSorted m ≤ k := by
  haveI : IsTotal String strLeP := ⟨strLeP_total⟩
  haveI : IsTrans String strLeP := ⟨strLeP_trans⟩
  have hperm := List.perm_insertionSort strLeP m
  have hsorted := List.sorted_insertionSort strLeP m
  unfold firstCurrencyCodeSorted
  cases hs : List.insertionSort strLeP m with
  | nil =>
    exact absurd (hperm.symm.trans (hs ▸ List.Perm.refl _)).eq_nil
      (by simpa using hm)
  | cons k rest =>
    rw [hs] at hperm hsorted
    have hkmem : k ∈ m := hperm.mem_iff.mp (List.mem_cons_self k rest)
    refine ⟨hkmem, ?_⟩
    intro k' hk'
    have hk'l : k' ∈ k :: rest := hperm.mem_iff.mpr hk'
    rcases List.mem_cons.mp hk'l with h | h
    · exact h ▸ le_refl k
    · exact (strLeP_iff_le k k').mp (List.rel_of_sorted_cons hsorted k' h)

/-! ### Lemmas about characters and uppercasing -/

theorem char_toNat_ofNat_valid {n : Nat} (h : n.isValidChar) :
    (Char.ofNat n).toNat = n := by
  rw [Char.ofNat, dif_pos h]
  rfl

theorem char_le_iff_toNat (a b : Char) : a ≤ b ↔ a.toNat ≤ b.toNat := by
  rw [Char.le_def, UInt32.le_def, BitVec.le_def]
  rfl

/-- The ASCII uppercasing of a character is never a lowercase ASCII letter. -/
theorem toUpper_not_az (c : Char) : ¬ ('a' ≤ c.toUpper ∧ c.toUpper ≤ 'z') := by
  unfold Char.toUpper
  by_cases h : c.toNat ≥ 97 ∧ c.toNat ≤ 122
  · rw [if_pos h]
    intro hc
    have hv : (c.toNat - 32).isValidChar := by
      unfold Nat.isValidChar
      left
      omega
    have ht := char_toNat_ofNat_valid hv
    have h1 := (char_le_iff_toNat _ _).mp hc.1
    have ha : ('a' : Char).toNat = 97 := by decide
    rw [ha, ht] at h1
    omega
  · rw [if_neg h]
    intro hc
    have h1 := (char_le_iff_toNat _ _).mp hc.1
    have h2 := (char_le_iff_toNat _ _).mp hc.2
    have ha : ('a' : Char).toNat = 97 := by decide
    have hz : ('z' : Char).toNat = 122 := by decide
    rw [ha] at h1
    rw [hz] at h2
    exact h ⟨h1, h2⟩

/-- No character of an uppercased string is a lowercase ASCII letter. -/
theorem toUpperStr_not_az (s : String) :
    ∀ c ∈ (toUpperStr s).data, ¬ ('a' ≤ c ∧ c ≤ 'z') := by
  intro c hc
  unfold toUpperStr at hc
  simp only [List.mem_map] at hc
  obtain ⟨c0, _, rfl⟩ := hc
  exact toUpper_not_az c0

/-! ### Inversion lemmas for the upstream clients and the fan-out loop -/

theorem fetchCountryAlpha_of_resp200arr (get : String → HTTPResult CountryBody)
    (code : String) (c : countriesCountry) (cs : List countriesCountry)
    (h : get code = .response 200 (.arr (c :: cs))) :
    fetchCountryAlpha get code = ⟨some c, 200, none⟩ := by
  simp [fetchCountryAlpha, h]

/-- A parsed country can only come out of fetchCountryAlpha when the oracle
answered 200 with a non-empty array body led by that country. -/
theorem fetchCountryAlpha_country_some (get : String → HTTPResult CountryBody)
    (code : String) (c : countriesCountry)
    (h : (fetchCountryAlpha get code).country = some c) :
    ∃ cs, get code = .response 200 (.arr (c :: cs)) ∧
      fetchCountryAlpha get code = ⟨some c, 200, none⟩ := by
  cases hg : get code with
  | transportError =>
    have hf : fetchCountryAlpha get code = ⟨none, 0, some .transport⟩ := by
      simp [fetchCountryAlpha, hg]
    rw [hf] at h
    simp at h
  | response st body =>
    by_cases hst : st = 200
    · subst hst
      cases body with
      | invalidJSON =>
        have hf : fetchCountryAlpha get code = ⟨none, 0, some .decode⟩ := by
          simp [fetchCountryAlpha, hg]
        rw [hf] at h
        simp at h
      | otherJSON =>
        have hf : fetchCountryAlpha get code = ⟨none, 0, some .shape⟩ := by
          simp [fetchCountryAlpha, hg]
        rw [hf] at h
        simp at h
      | obj c0 =>
        have hf : fetchCountryAlpha get code = ⟨none, 0, some .shape⟩ := by
          simp [fetchCountryAlpha, hg]
        rw [hf] at h
        simp at h
      | arr cs =>
        cases cs with
        | nil =>
          have hf : fetchCountryAlpha get code = ⟨none, 0, some .shape⟩ := by
            simp [fetchCountryAlpha, hg]
          rw [hf] at h
          simp at h
        | cons c0 cs0 =>
          have hf : fetchCountryAlpha get code = ⟨some c0, 200, none⟩ := by
            simp [fetchCountryAlpha, hg]
          rw [hf] at h
          simp at h
          subst h
          exact ⟨cs0, rfl, hf⟩
    · have hf : fetchCountryAlpha get code = ⟨none, st, none⟩ := by
        simp [fetchCountryAlpha, hg, hst]
      rw [hf] at h
      simp at h

/-- Elements of a successfully accumulated neighbour-currency set that were
not already in the accumulator are 3 bytes long, differ from the base
currency, and are uppercased strings. -/
theorem collect_ok_mem (get : String → HTTPResult CountryBody) (base : String) :
    ∀ (borders acc neigh : List String),
      (collectNeighbourCurrencies get base borders acc).1 = .ok neigh →
      ∀ x ∈ neigh, x ∈ acc ∨
        (x.utf8ByteSize = 3 ∧ x ≠ base ∧ ∃ s, x = toUpperStr s)
  | [], acc, neigh => by
    intro h x hx
    simp only [collectNeighbourCurrencies] at h
    cases h
    exact Or.inl hx
  | cca3 :: rest, acc, neigh => by
    intro h x hx
    simp only [collectNeighbourCurrencies] at h
    by_cases hc : trimSpace cca3 = ""
    · rw [if_pos hc] at h
      exact collect_ok_mem get base rest acc neigh h x hx
    · rw [if_neg hc] at h
      by_cases he : (fetchCountryAlpha get (trimSpace cca3)).err.isSome
      · rw [if_pos he] at h
        simp at h
      · rw [if_neg he] at h
        cases hcy : (fetchCountryAlpha get (trimSpace cca3)).country with
        | none => rw [hcy] at h; simp at h
        | some nc =>
          rw [hcy] at h
          dsimp only at h
          by_cases hst : (fetchCountryAlpha get (trimSpace cca3)).status ≠ 200
          · rw [if_pos hst] at h
            simp at h
          · rw [if_neg hst] at h
            have ih := collect_ok_mem get base rest _ neigh h x hx
            rcases ih with hin | hprops
            · by_cases h1 : toUpperStr (firstCurrencyCodeSorted nc.currencies) = "" ∨
                  (toUpperStr (firstCurrencyCodeSorted nc.currencies)).utf8ByteSize ≠ 3
              · rw [if_pos h1] at hin
                exact Or.inl hin
              · rw [if_neg h1] at hin
                by_cases h2 : toUpperStr (firstCurrencyCodeSorted nc.currencies) = base
                · rw [if_pos h2] at hin
                  exact Or.inl hin
                · rw [if_neg h2] at hin
                  by_cases h3 : toUpperStr (firstCurrencyCodeSorted nc.currencies) ∈ acc
                  · rw [if_pos h3] at hin
                    exact Or.inl hin
                  · rw [if_neg h3] at hin
                    rcases List.mem_append.mp hin with h4 | h4
                    · exact Or.inl h4
                    · push_neg at h1
                      rcases List.mem_singleton.mp h4 with rfl
                      exact Or.inr ⟨h1.2, h2, firstCurrencyCodeSorted nc.currencies, rfl⟩
            · exact Or.inr hprops

/-- Every call recorded by the fan-out loop is a country lookup; the loop
never calls the rate provider. -/
theorem collect_calls_country (get : String → HTTPResult CountryBody)
    (base : String) :
    ∀ (borders acc : List String),
      ∀ x ∈ (collectNeighbourCurrencies get base borders acc).2,
        ∃ c, x = UpstreamCall.countryAlpha c
  | [], acc => by
    intro x hx
    simp [collectNeighbourCurrencies] at hx
  | cca3 :: rest, acc => by
    intro x hx
    simp only [collectNeighbourCurrencies] at hx
    by_cases hc : trimSpace cca3 = ""
    · rw [if_pos hc] at hx
      exact collect_calls_country get base rest acc x hx
    · rw [if_neg hc] at hx
      by_cases he : (fetchCountryAlpha get (trimSpace cca3)).err.isSome
      · rw [if_pos he] at hx
        simp at hx
        exact ⟨trimSpace cca3, hx⟩
      · rw [if_neg he] at hx
        cases hcy : (fetchCountryAlpha get (trimSpace cca3)).country with
        | none =>
          rw [hcy] at hx
          simp at hx
          exact ⟨trimSpace cca3, hx⟩
        | some nc =>
          rw [hcy] at hx
          dsimp only at hx
          by_cases hst : (fetchCountryAlpha get (trimSpace cca3)).status ≠ 200
          · rw [if_pos hst] at hx
            simp at hx
            exact ⟨trimSpace cca3, hx⟩
          · rw [if_neg hst] at hx
            rcases List.mem_cons.mp hx with h | h
            · exact ⟨trimSpace cca3, h⟩
            · exact collect_calls_country get base rest _ x h

/-- If some border of the list has a non-blank code whose lookup fails on the
wire, the fan-out loop aborts with an error. -/
theorem collect_error_of_failure (get : String → HTTPResult CountryBody)
    (base : String) :
    ∀ (borders acc : List String),
      (∃ b ∈ borders, trimSpace b ≠ "" ∧ neighbourLookupFails get (trimSpace b)) →
      ∃ msg, (collectNeighbourCurrencies get base borders acc).1 = .error msg
  | [], acc => by
    intro h
    simp at h
  | cca3 :: rest, acc => by
    intro h
    simp only [collectNeighbourCurrencies]
    by_cases hc : trimSpace cca3 = ""
    · rw [if_pos hc]
      obtain ⟨b, hb, hbne, hbf⟩ := h
      rcases List.mem_cons.mp hb with rfl | hb2
      · exact absurd hc hbne
      · exact collect_error_of_failure get base rest acc ⟨b, hb2, hbne, hbf⟩
    · rw [if_neg hc]
      by_cases he : (fetchCountryAlpha get (trimSpace cca3)).err.isSome
      · rw [if_pos he]
        exact ⟨_, rfl⟩
      · rw [if_neg he]
        cases hcy : (fetchCountryAlpha get (trimSpace cca3)).country with
        | none => exact ⟨_, rfl⟩
        | some nc =>
          dsimp only
          by_cases hst : (fetchCountryAlpha get (trimSpace cca3)).status ≠ 200
          · rw [if_pos hst]
            exact ⟨_, rfl⟩
          · rw [if_neg hst]
            obtain ⟨b, hb, hbne, hbf⟩ := h
            obtain ⟨cs0, hg, -⟩ := fetchCountryAlpha_country_some _ _ _ hcy
            rcases List.mem_cons.mp hb with rfl | hb2
            · exfalso
              rcases hbf with h1 | ⟨st, body, h2, hst2⟩
              · rw [hg] at h1
                cases h1
              · rw [hg] at h2
                cases h2
                exact hst2 rfl
            · exact collect_error_of_failure get base rest _ ⟨b, hb2, hbne, hbf⟩

/-- Evaluation of the exchange handler when the input country was fetched but
its base currency is empty or not 3 bytes: the 502 malformed-currency error. -/
theorem ExchangeHandler_eval_base_bad (getC : String → HTTPResult CountryBody)
    (getR : String → HTTPResult RatesBody) (path : String)
    (input : countriesCountry) (cs : List countriesCountry)
    (hv : validISO2 (normalizeISO2 (stripRoute path exchangeRoute)) = true)
    (hC : getC (normalizeISO2 (stripRoute path exchangeRoute)) =
      .response 200 (.arr (input :: cs)))
    (hb : toUpperStr (firstCurrencyCodeSorted input.currencies) = "" ∨
      (toUpperStr (firstCurrencyCodeSorted input.currencies)).utf8ByteSize ≠ 3) :
    ExchangeHandler ⟨getC, getR⟩ "GET" path =
      (writeJSONError 502 "input country has no valid currency",
        [UpstreamCall.countryAlpha (normalizeISO2 (stripRoute path exchangeRoute))]) := by
  have hf := fetchCountryAlpha_of_resp200arr getC _ input cs hC
  simp [ExchangeHandler, hv, hf, hb]

/-- Evaluation of the exchange handler when the fan-out loop aborts: the 502
response carrying the loop error message. -/
theorem ExchangeHandler_eval_collect_error (getC : String → HTTPResult CountryBody)
    (getR : String → HTTPResult RatesBody) (path : String)
    (input : countriesCountry) (cs : List countriesCountry) (msg : String)
    (hv : validISO2 (normalizeISO2 (stripRoute path exchangeRoute)) = true)
    (hC : getC (normalizeISO2 (stripRoute path exchangeRoute)) =
      .response 200 (.arr (input :: cs)))
    (hb1 : toUpperStr (firstCurrencyCodeSorted input.currencies) ≠ "")
    (hb2 : (toUpperStr (firstCurrencyCodeSorted input.currencies)).utf8ByteSize = 3)
    (hcol : (collectNeighbourCurrencies getC
        (toUpperStr (firstCurrencyCodeSorted input.currencies)) input.borders []).1 =
      .error msg) :
    ExchangeHandler ⟨getC, getR⟩ "GET" path =
      (writeJSONError 502 msg,
        [UpstreamCall.countryAlpha (normalizeISO2 (stripRoute path exchangeRoute))] ++
          (collectNeighbourCurrencies getC
            (toUpperStr (firstCurrencyCodeSorted input.currencies)) input.borders []).2) := by
  have hf := fetchCountryAlpha_of_resp200arr getC _ input cs hC
  simp [ExchangeHandler, hv, hf, hb1, hb2, hcol]

/-- Evaluation of the exchange handler when the fan-out loop succeeds with an
empty neighbour-currency set: immediate 200 with an empty rate mapping, and
the recorded trace contains only country lookups. -/
theorem ExchangeHandler_eval_collect_nil (getC : String → HTTPResult CountryBody)
    (getR : String → HTTPResult RatesBody) (path : String)
    (input : countriesCountry) (cs : List countriesCountry)
    (hv : validISO2 (normalizeISO2 (stripRoute path exchangeRoute)) = true)
    (hC : getC (normalizeISO2 (stripRoute path exchangeRoute)) =
      .response 200 (.arr (input :: cs)))
    (hb1 : toUpperStr (firstCurrencyCodeSorted input.currencies) ≠ "")
    (hb2 : (toUpperStr (firstCurrencyCodeSorted input.currencies)).utf8ByteSize = 3)
    (hcol : (collectNeighbourCurrencies getC
        (toUpperStr (firstCurrencyCodeSorted input.currencies)) input.borders []).1 =
      .ok []) :
    ExchangeHandler ⟨getC, getR⟩ "GET" path =
      (⟨200, .exchange ⟨input.name.common,
          toUpperStr (firstCurrencyCodeSorted input.currencies), []⟩⟩,
        [UpstreamCall.countryAlpha (normalizeISO2 (stripRoute path exchangeRoute))] ++
          (collectNeighbourCurrencies getC
            (toUpperStr (firstCurrencyCodeSorted input.currencies)) input.borders []).2) := by
  have hf := fetchCountryAlpha_of_resp200arr getC _ input cs hC
  simp [ExchangeHandler, hv, hf, hb1, hb2, hcol]

/-- Evaluation of the exchange handler on the full success path: a non-empty
neighbour set, a 200 parsed rate response, and a result marker that is blank
or the word success, produce the 200 response whose rate mapping filters the
upstream rate set to the neighbour currencies. -/
theorem ExchangeHandler_eval_success (getC : String → HTTPResult CountryBody)
    (getR : String → HTTPResult RatesBody) (path : String)
    (input : countriesCountry) (cs : List countriesCountry)
    (neigh : List String) (rr : upstreamCurrencyResponse)
    (hv : validISO2 (normalizeISO2 (stripRoute path exchangeRoute)) = true)
    (hC : getC (normalizeISO2 (stripRoute path exchangeRoute)) =
      .response 200 (.arr (input :: cs)))
    (hb1 : toUpperStr (firstCurrencyCodeSorted input.currencies) ≠ "")
    (hb2 : (toUpperStr (firstCurrencyCodeSorted input.currencies)).utf8ByteSize = 3)
    (hcol : (collectNeighbourCurrencies getC
        (toUpperStr (firstCurrencyCodeSorted input.currencies)) input.borders []).1 =
      .ok neigh)
    (hne : neigh ≠ [])
    (hR : getR (toUpperStr (firstCurrencyCodeSorted input.currencies)) =
      .response 200 (.parsed rr))
    (hres : rr.result = "" ∨ rr.result = "success") :
    ExchangeHandler ⟨getC, getR⟩ "GET" path =
      (⟨200, .exchange ⟨input.name.common,
          toUpperStr (firstCurrencyCodeSorted input.currencies),
          neigh.filterMap fun ccy => (rr.rates.lookup ccy).map fun v => (ccy, v)⟩⟩,
        [UpstreamCall.countryAlpha (normalizeISO2 (stripRoute path exchangeRoute))] ++
          (collectNeighbourCurrencies getC
            (toUpperStr (firstCurrencyCodeSorted input.currencies)) input.borders []).2 ++
          [UpstreamCall.rates (toUpperStr (firstCurrencyCodeSorted input.currencies))]) := by
  have hf := fetchCountryAlpha_of_resp200arr getC _ input cs hC
  have hfr : fetchRates getR (toUpperStr (firstCurrencyCodeSorted input.currencies)) =
      ⟨some rr, 200, false⟩ := by
    simp [fetchRates, hR]
  have hres2 : ¬ (rr.result ≠ "" ∧ rr.result ≠ "success") := by
    rcases hres with h | h <;> simp [h]
  simp [ExchangeHandler, hv, hf, hb1, hb2, hcol, hne, hfr, hres2]

/-- Inversion of a successful exchange response: a 200 body can only be an
exchange record whose country is the fetched input country, whose base
currency is the uppercased lexicographically-first currency key (non-empty and
3 bytes long), and whose rate keys all come from a successfully accumulated
neighbour-currency set. -/
theorem ExchangeHandler_exchange_inv (up : Upstream) (method path : String)
    (e : exchangeResponse)
    (he : (ExchangeHandler up method path).1.body = .exchange e) :
    ∃ input cs neigh,
      up.getCountry (normalizeISO2 (stripRoute path exchangeRoute)) =
        .response 200 (.arr (input :: cs)) ∧
      e.country = input.name.common ∧
      e.baseCurrency = toUpperStr (firstCurrencyCodeSorted input.currencies) ∧
      e.baseCurrency ≠ "" ∧
      e.baseCurrency.utf8ByteSize = 3 ∧
      (collectNeighbourCurrencies up.getCountry e.baseCurrency input.borders []).1 =
        Except.ok neigh ∧
      ∀ p ∈ e.exchangeRates, p.1 ∈ neigh := by
  by_cases hm : method = "GET"
  case neg =>
    have hm2 : method ≠ "GET" := hm
    simp only [ExchangeHandler] at he
    rw [if_pos hm2] at he
    simp [writeJSONError] at he
  case pos =>
  subst hm
  simp only [ExchangeHandler] at he
  rw [if_neg (by simp)] at he
  by_cases hv : validISO2 (normalizeISO2 (stripRoute path exchangeRoute)) = true
  case neg =>
    rw [if_pos hv] at he
    simp [writeJSONError] at he
  case pos =>
  rw [if_neg (by simp [hv])] at he
  by_cases her :
      (fetchCountryAlpha up.getCountry
        (normalizeISO2 (stripRoute path exchangeRoute))).err.isSome = true
  case pos =>
    rw [if_pos her] at he
    simp [writeJSONError] at he
  case neg =>
  rw [if_neg her] at he
  by_cases h404 :
      (fetchCountryAlpha up.getCountry
        (normalizeISO2 (stripRoute path exchangeRoute))).status = 404 ∨
      (fetchCountryAlpha up.getCountry
        (normalizeISO2 (stripRoute path exchangeRoute))).country = none
  case pos =>
    rw [if_pos h404] at he
    simp [writeJSONError] at he
  case neg =>
  rw [if_neg h404] at he
  by_cases h200 :
      (fetchCountryAlpha up.getCountry
        (normalizeISO2 (stripRoute path exchangeRoute))).status ≠ 200
  case pos =>
    rw [if_pos h200] at he
    simp [writeJSONError] at he
  case neg =>
  rw [if_neg h200] at he
  cases hcy : (fetchCountryAlpha up.getCountry
      (normalizeISO2 (stripRoute path exchangeRoute))).country with
  | none =>
    exact absurd (Or.inr hcy) h404
  | some input =>
  rw [hcy] at he
  dsimp only at he
  obtain ⟨cs, hg, -⟩ := fetchCountryAlpha_country_some _ _ _ hcy
  refine ⟨input, cs, ?_⟩
  by_cases hb : toUpperStr (firstCurrencyCodeSorted input.currencies) = "" ∨
      (toUpperStr (firstCurrencyCodeSorted input.currencies)).utf8ByteSize ≠ 3
  case pos =>
    rw [if_pos hb] at he
    simp [writeJSONError] at he
  case neg =>
  rw [if_neg hb] at he
  push_neg at hb
  cases hcol : (collectNeighbourCurrencies up.getCountry
      (toUpperStr (firstCurrencyCodeSorted input.currencies)) input.borders []).1 with
  | error msg =>
    rw [hcol] at he
    simp [writeJSONError] at he
  | ok neigh =>
  rw [hcol] at he
  dsimp only at he
  refine ⟨neigh, hg, ?_⟩
  by_cases hne : neigh = []
  case pos =>
    rw [if_pos hne] at he
    have he2 : HttpBody.exchange
        ⟨input.name.common, toUpperStr (firstCurrencyCodeSorted input.currencies), []⟩ =
        HttpBody.exchange e := he
    rw [HttpBody.exchange.injEq] at he2
    subst he2
    exact ⟨rfl, rfl, hb.1, hb.2, hcol, by simp⟩
  case neg =>
  rw [if_neg hne] at he
  by_cases hrr : (fetchRates up.getRates
      (toUpperStr (firstCurrencyCodeSorted input.currencies))).err = true
  case pos =>
    rw [if_pos hrr] at he
    simp [writeJSONError] at he
  case neg =>
  rw [if_neg hrr] at he
  by_cases hrs : (fetchRates up.getRates
      (toUpperStr (firstCurrencyCodeSorted input.currencies))).status ≠ 200 ∨
      (fetchRates up.getRates
        (toUpperStr (firstCurrencyCodeSorted input.currencies))).resp = none
  case pos =>
    rw [if_pos hrs] at he
    simp [writeJSONError] at he
  case neg =>
  rw [if_neg hrs] at he
  cases hresp : (fetchRates up.getRates
      (toUpperStr (firstCurrencyCodeSorted input.currencies))).resp with
  | none =>
    rw [hresp] at he
    simp [writeJSONError] at he
  | some ratesResp =>
  rw [hresp] at he
  dsimp only at he
  by_cases hres : ratesResp.result ≠ "" ∧ ratesResp.result ≠ "success"
  case pos =>
    rw [if_pos hres] at he
    simp [writeJSONError] at he
  case neg =>
  rw [if_neg hres] at he
  have he2 : HttpBody.exchange
      ⟨input.name.common, toUpperStr (firstCurrencyCodeSorted input.currencies),
        neigh.filterMap fun ccy => (ratesResp.rates.lookup ccy).map fun v => (ccy, v)⟩ =
      HttpBody.exchange e := he
  rw [HttpBody.exchange.injEq] at he2
  subst he2
  refine ⟨rfl, rfl, hb.1, hb.2, hcol, ?_⟩
  intro p hp
  simp only [List.mem_filterMap] at hp
  obtain ⟨a, ha, hfa⟩ := hp
  cases hlk : (ratesResp.rates.lookup a) with
  | none => rw [hlk] at hfa; simp at hfa
  | some v =>
    rw [hlk] at hfa
    simp at hfa
    subst hfa
    exact ha

/-! ### Claim theorems -/

/-- Claim C9: the status endpoint responds 200 exactly when both upstream
probes return HTTP 200; in every other case it responds 502 (a transport
failure being recorded by probeHTTP as the bad-gateway code 502), and in both
cases the body carries the two individual probe status codes together with
the API version and the uptime value (whole seconds since process start,
passed to the handler as a parameter of the embedding). -/
theorem StatusHandler_composes_probe_health (get : String → HTTPResult Unit)
    (uptime : Int) :
    ((StatusHandler get "GET" uptime).status = 200 ↔
      probeHTTP get countriesProbeURL = 200 ∧ probeHTTP get currencyProbeURL = 200) ∧
    ((StatusHandler get "GET" uptime).status = 200 ∨
      (StatusHandler get "GET" uptime).status = 502) ∧
    (StatusHandler get "GET" uptime).body =
      HttpBody.statusB ⟨probeHTTP get countriesProbeURL,
        probeHTTP get currencyProbeURL, version, uptime⟩ ∧
    (∀ u, get u = .transportError → probeHTTP get u = 502) := by
  unfold StatusHandler
  rw [if_neg (by simp)]
  refine ⟨?_, ?_, rfl, ?_⟩
  · by_cases h1 : probeHTTP get countriesProbeURL = 200 <;>
      by_cases h2 : probeHTTP get currencyProbeURL = 200 <;>
      simp [h1, h2]
  · by_cases h1 : probeHTTP get countriesProbeURL = 200 <;>
      by_cases h2 : probeHTTP get currencyProbeURL = 200 <;>
      simp [h1, h2]
  · intro u hu
    simp [probeHTTP, hu]

/-- Witness for claim C9 at a concrete healthy probe oracle and uptime 7. -/
theorem StatusHandler_composes_probe_health_witness :
    (StatusHandler probeAllOk "GET" 7).status = 200 :=
  (StatusHandler_composes_probe_health probeAllOk 7).1.mpr ⟨by decide, by decide⟩

/-- Claim C1, evaluated at the failing input: when the country provider
completes without a transport error but with HTTP status 500 (neither 200
nor 404), both the info and the exchange endpoint answer 404 country not
found instead of the 502 the claim requires, because fetchCountryAlpha
returns a nil country for every non-200 status and the nil-country disjunct
of the 404 guard catches it before the non-200 guard can fire. -/
theorem InfoHandler_500_yields_404 :
    (InfoHandler ⟨oracle500, sampleRatesOracle⟩ "GET"
        "/countryinfo/v1/info/no").1 = writeJSONError 404 "country not found" ∧
    (ExchangeHandler ⟨oracle500, sampleRatesOracle⟩ "GET"
        "/countryinfo/v1/exchange/no").1 = writeJSONError 404 "country not found" := by
  decide

/-- Claim C2, evaluated at the failing input: a 200 country-provider response
whose body is a single JSON object (a shape the in-code comment of
fetchCountryAlpha promises to support) is rejected with the
unexpected-shape error, because the code only ever unmarshals the body as an
array; the info endpoint then answers 502. -/
theorem fetchCountryAlpha_rejects_object_shape :
    fetchCountryAlpha oracleObj "no" =
      ⟨none, 0, some FetchErr.shape⟩ ∧
    (InfoHandler ⟨oracleObj, sampleRatesOracle⟩ "GET"
        "/countryinfo/v1/info/no").1 =
      writeJSONError 502 "failed to call countries service" := by
  decide

/-- Claim C10: a 200 country-provider response whose body parses as an empty
JSON array makes the client report the unexpected-shape error, and the info
and exchange endpoints then respond 502 (upstream error), not 404. -/
theorem emptyArray_is_upstream_error (getC : String → HTTPResult CountryBody)
    (getR : String → HTTPResult RatesBody) (pathI pathX : String)
    (hvI : validISO2 (normalizeISO2 (stripRoute pathI infoRoute)) = true)
    (hvX : validISO2 (normalizeISO2 (stripRoute pathX exchangeRoute)) = true)
    (hCI : getC (normalizeISO2 (stripRoute pathI infoRoute)) =
      .response 200 (.arr []))
    (hCX : getC (normalizeISO2 (stripRoute pathX exchangeRoute)) =
      .response 200 (.arr [])) :
    fetchCountryAlpha getC (normalizeISO2 (stripRoute pathI infoRoute)) =
      ⟨none, 0, some FetchErr.shape⟩ ∧
    (InfoHandler ⟨getC, getR⟩ "GET" pathI).1 =
      writeJSONError 502 "failed to call countries service" ∧
    (ExchangeHandler ⟨getC, getR⟩ "GET" pathX).1 =
      writeJSONError 502 "failed to call countries service" := by
  have hfI : fetchCountryAlpha getC (normalizeISO2 (stripRoute pathI infoRoute)) =
      ⟨none, 0, some FetchErr.shape⟩ := by
    simp [fetchCountryAlpha, hCI]
  have hfX : fetchCountryAlpha getC (normalizeISO2 (stripRoute pathX exchangeRoute)) =
      ⟨none, 0, some FetchErr.shape⟩ := by
    simp [fetchCountryAlpha, hCX]
  refine ⟨hfI, ?_, ?_⟩
  · simp [InfoHandler, hvI, hfI]
  · simp [ExchangeHandler, hvX, hfX]

/-- Witness for claim C10 at the concrete empty-array oracle. -/
theorem emptyArray_is_upstream_error_witness :
    fetchCountryAlpha oracleEmptyArr
        (normalizeISO2 (stripRoute "/countryinfo/v1/info/no" infoRoute)) =
      ⟨none, 0, some FetchErr.shape⟩ ∧
    (InfoHandler ⟨oracleEmptyArr, sampleRatesOracle⟩ "GET"
        "/countryinfo/v1/info/no").1 =
      writeJSONError 502 "failed to call countries service" ∧
    (ExchangeHandler ⟨oracleEmptyArr, sampleRatesOracle⟩ "GET"
        "/countryinfo/v1/exchange/no").1 =
      writeJSONError 502 "failed to call countries service" :=
  emptyArray_is_upstream_error oracleEmptyArr sampleRatesOracle
    "/countryinfo/v1/info/no" "/countryinfo/v1/exchange/no"
    (by decide) (by decide) (by decide) (by decide)

/-- Claim C3: whenever the trim-then-lowercase normalization of the path
parameter does not consist of exactly 2 characters in the range a..z, the
info and the exchange endpoint return 400 with an empty upstream call trace:
validation precedes any network call, for every upstream oracle. -/
theorem invalid_code_short_circuits (up : Upstream) (pathI pathX : String)
    (hI : ¬ ((normalizeISO2 (stripRoute pathI infoRoute)).data.length = 2 ∧
      ∀ c ∈ (normalizeISO2 (stripRoute pathI infoRoute)).data, 'a' ≤ c ∧ c ≤ 'z'))
    (hX : ¬ ((normalizeISO2 (stripRoute pathX exchangeRoute)).data.length = 2 ∧
      ∀ c ∈ (normalizeISO2 (stripRoute pathX exchangeRoute)).data, 'a' ≤ c ∧ c ≤ 'z')) :
    InfoHandler up "GET" pathI =
      (writeJSONError 400
        "two_letter_country_code must be 2 letters (ISO 3166-2), e.g. /countryinfo/v1/info/no", []) ∧
    ExchangeHandler up "GET" pathX =
      (writeJSONError 400
        "two_letter_country_code must be 2 letters (ISO 3166-2), e.g. /countryinfo/v1/exchange/no", []) := by
  have hvI : ¬ validISO2 (normalizeISO2 (stripRoute pathI infoRoute)) = true := by
    rw [validISO2_iff]
    exact hI
  have hvX : ¬ validISO2 (normalizeISO2 (stripRoute pathX exchangeRoute)) = true := by
    rw [validISO2_iff]
    exact hX
  constructor
  · simp [InfoHandler, hvI]
  · simp [ExchangeHandler, hvX]

/-- Witness for claim C3 at concrete invalid path parameters (a 3-letter code
for info, a code with a digit for exchange), with an oracle that would
resolve everything had it been called. -/
theorem invalid_code_short_circuits_witness :
    InfoHandler ⟨sampleCountryOracle, sampleRatesOracle⟩ "GET"
        "/countryinfo/v1/info/nor" =
      (writeJSONError 400
        "two_letter_country_code must be 2 letters (ISO 3166-2), e.g. /countryinfo/v1/info/no", []) ∧
    ExchangeHandler ⟨sampleCountryOracle, sampleRatesOracle⟩ "GET"
        "/countryinfo/v1/exchange/n1" =
      (writeJSONError 400
        "two_letter_country_code must be 2 letters (ISO 3166-2), e.g. /countryinfo/v1/exchange/no", []) :=
  invalid_code_short_circuits ⟨sampleCountryOracle, sampleRatesOracle⟩
    "/countryinfo/v1/info/nor" "/countryinfo/v1/exchange/n1"
    (by decide) (by decide)

/-- Claim C4: for every successfully fetched input country, the exchange
endpoint selects as base currency the lexicographically smallest key of the
currency map, upper-cased (the selected key is a member of the key list that
is below every member in the lexicographic string order), and when the
currency map is empty or the selected code is not exactly 3 characters long
(Go len counts bytes; for the codes in scope a byte is a character), the
endpoint returns 502. -/
theorem ExchangeHandler_base_selection (getC : String → HTTPResult CountryBody)
    (getR : String → HTTPResult RatesBody) (path : String)
    (input : countriesCountry) (cs : List countriesCountry)
    (hv : validISO2 (normalizeISO2 (stripRoute path exchangeRoute)) = true)
    (hC : getC (normalizeISO2 (stripRoute path exchangeRoute)) =
      .response 200 (.arr (input :: cs))) :
    (input.currencies ≠ [] →
      ∃ k, k ∈ input.currencies ∧
        toUpperStr (firstCurrencyCodeSorted input.currencies) = toUpperStr k ∧
        ∀ k' ∈ input.currencies, k ≤ k') ∧
    ((input.currencies = [] ∨
        (toUpperStr (firstCurrencyCodeSorted input.currencies)).utf8ByteSize ≠ 3) →
      (ExchangeHandler ⟨getC, getR⟩ "GET" path).1 =
        writeJSONError 502 "input country has no valid currency") ∧
    (∀ e, (ExchangeHandler ⟨getC, getR⟩ "GET" path).1.body = .exchange e →
      e.baseCurrency = toUpperStr (firstCurrencyCodeSorted input.currencies)) := by
  refine ⟨?_, ?_, ?_⟩
  · intro hne
    obtain ⟨hmem, hmin⟩ := firstCurrencyCodeSorted_spec input.currencies hne
    exact ⟨firstCurrencyCodeSorted input.currencies, hmem, rfl, hmin⟩
  · intro hcond
    have hb : toUpperStr (firstCurrencyCodeSorted input.currencies) = "" ∨
        (toUpperStr (firstCurrencyCodeSorted input.currencies)).utf8ByteSize ≠ 3 := by
      rcases hcond with h | h
      · left
        rw [h]
        rfl
      · right
        exact h
    rw [ExchangeHandler_eval_base_bad getC getR path input cs hv hC hb]
  · intro e he
    obtain ⟨input2, cs2, neigh, hg2, -, hbasec, -⟩ :=
      ExchangeHandler_exchange_inv ⟨getC, getR⟩ "GET" path e he
    have hg3 : getC (normalizeISO2 (stripRoute path exchangeRoute)) =
        HTTPResult.response 200 (CountryBody.arr (input2 :: cs2)) := hg2
    rw [hC] at hg3
    have heq : input = input2 ∧ cs = cs2 := by simpa using hg3
    rcases heq with ⟨rfl, -⟩
    exact hbasec

/-- Witness for claim C4: on the sample Norway record the selected key NOK is
a minimal member of the key list. -/
theorem ExchangeHandler_base_selection_witness :
    ∃ k, k ∈ sampleNorway.currencies ∧
      toUpperStr (firstCurrencyCodeSorted sampleNorway.currencies) = toUpperStr k ∧
      ∀ k' ∈ sampleNorway.currencies, k ≤ k' :=
  (ExchangeHandler_base_selection sampleCountryOracle sampleRatesOracle
    "/countryinfo/v1/exchange/no" sampleNorway [] (by decide) (by decide)).1
    (by decide)

/-- Claim C5: once the input country is fetched, a transport failure or a
non-200 status on any single non-blank neighbour lookup makes the whole
exchange request abort with a 502 error response; no exchange (success) body
is ever produced from a partial set of neighbours. -/
theorem ExchangeHandler_fanout_aborts (getC : String → HTTPResult CountryBody)
    (getR : String → HTTPResult RatesBody) (path : String)
    (input : countriesCountry) (cs : List countriesCountry)
    (hv : validISO2 (normalizeISO2 (stripRoute path exchangeRoute)) = true)
    (hC : getC (normalizeISO2 (stripRoute path exchangeRoute)) =
      .response 200 (.arr (input :: cs)))
    (hfail : ∃ b ∈ input.borders, trimSpace b ≠ "" ∧
      neighbourLookupFails getC (trimSpace b)) :
    (ExchangeHandler ⟨getC, getR⟩ "GET" path).1.status = 502 ∧
    ∀ e, (ExchangeHandler ⟨getC, getR⟩ "GET" path).1.body ≠ HttpBody.exchange e := by
  by_cases hb : toUpperStr (firstCurrencyCodeSorted input.currencies) = "" ∨
      (toUpperStr (firstCurrencyCodeSorted input.currencies)).utf8ByteSize ≠ 3
  · rw [ExchangeHandler_eval_base_bad getC getR path input cs hv hC hb]
    exact ⟨rfl, fun e h => by simp [writeJSONError] at h⟩
  · push_neg at hb
    obtain ⟨msg, hcol⟩ := collect_error_of_failure getC
      (toUpperStr (firstCurrencyCodeSorted input.currencies)) input.borders [] hfail
    rw [ExchangeHandler_eval_collect_error getC getR path input cs msg hv hC
      hb.1 hb.2 hcol]
    exact ⟨rfl, fun e h => by simp [writeJSONError] at h⟩

/-- Witness for claim C5: Norway with every neighbour lookup failing at the
transport level yields a 502. -/
theorem ExchangeHandler_fanout_aborts_witness :
    (ExchangeHandler ⟨oracleNeighbourDown, sampleRatesOracle⟩ "GET"
      "/countryinfo/v1/exchange/no").1.status = 502 :=
  (ExchangeHandler_fanout_aborts oracleNeighbourDown sampleRatesOracle
    "/countryinfo/v1/exchange/no" sampleNorway [] (by decide) (by decide)
    ⟨"SWE", by decide, by decide, Or.inl (by decide)⟩).1

/-- Claim C6: when the accumulated neighbour-currency set is empty, the
exchange endpoint returns 200 with an empty exchange-rates mapping and the
rate provider is never called (every recorded upstream call is a country
lookup). -/
theorem ExchangeHandler_empty_neighbour_set (getC : String → HTTPResult CountryBody)
    (getR : String → HTTPResult RatesBody) (path : String)
    (input : countriesCountry) (cs : List countriesCountry)
    (hv : validISO2 (normalizeISO2 (stripRoute path exchangeRoute)) = true)
    (hC : getC (normalizeISO2 (stripRoute path exchangeRoute)) =
      .response 200 (.arr (input :: cs)))
    (hb1 : toUpperStr (firstCurrencyCodeSorted input.currencies) ≠ "")
    (hb2 : (toUpperStr (firstCurrencyCodeSorted input.currencies)).utf8ByteSize = 3)
    (hcol : (collectNeighbourCurrencies getC
        (toUpperStr (firstCurrencyCodeSorted input.currencies)) input.borders []).1 =
      .ok []) :
    (ExchangeHandler ⟨getC, getR⟩ "GET" path).1 =
      ⟨200, .exchange ⟨input.name.common,
        toUpperStr (firstCurrencyCodeSorted input.currencies), []⟩⟩ ∧
    ∀ x ∈ (ExchangeHandler ⟨getC, getR⟩ "GET" path).2, x.isRates = false := by
  rw [ExchangeHandler_eval_collect_nil getC getR path input cs hv hC hb1 hb2 hcol]
  refine ⟨rfl, ?_⟩
  intro x hx
  rcases List.mem_append.mp hx with h | h
  · rcases List.mem_singleton.mp h with rfl
    rfl
  · obtain ⟨c, rfl⟩ := collect_calls_country getC
      (toUpperStr (firstCurrencyCodeSorted input.currencies)) input.borders [] x h
    rfl

/-- Witness for claim C6: Sweden has no borders, so the exchange endpoint
answers 200 with an empty mapping and no rate call is recorded. -/
theorem ExchangeHandler_empty_neighbour_set_witness :
    (ExchangeHandler ⟨sampleCountryOracle, sampleRatesOracle⟩ "GET"
      "/countryinfo/v1/exchange/se").1 =
      ⟨200, .exchange ⟨sampleSweden.name.common,
        toUpperStr (firstCurrencyCodeSorted sampleSweden.currencies), []⟩⟩ ∧
    ∀ x ∈ (ExchangeHandler ⟨sampleCountryOracle, sampleRatesOracle⟩ "GET"
      "/countryinfo/v1/exchange/se").2, x.isRates = false :=
  ExchangeHandler_empty_neighbour_set sampleCountryOracle sampleRatesOracle
    "/countryinfo/v1/exchange/se" sampleSweden [] (by decide) (by decide)
    (by decide) (by decide) (by rfl)

/-- Claim C7: on the full success path the exchange-rates mapping contains a
pair for exactly those currencies of the neighbour set that occur in the
fetched rate set, each paired with its upstream rate; neighbour currencies
absent from the rate set are silently omitted and the response is still a
200. -/
theorem ExchangeHandler_filters_rates (getC : String → HTTPResult CountryBody)
    (getR : String → HTTPResult RatesBody) (path : String)
    (input : countriesCountry) (cs : List countriesCountry)
    (neigh : List String) (rr : upstreamCurrencyResponse)
    (hv : validISO2 (normalizeISO2 (stripRoute path exchangeRoute)) = true)
    (hC : getC (normalizeISO2 (stripRoute path exchangeRoute)) =
      .response 200 (.arr (input :: cs)))
    (hb1 : toUpperStr (firstCurrencyCodeSorted input.currencies) ≠ "")
    (hb2 : (toUpperStr (firstCurrencyCodeSorted input.currencies)).utf8ByteSize = 3)
    (hcol : (collectNeighbourCurrencies getC
        (toUpperStr (firstCurrencyCodeSorted input.currencies)) input.borders []).1 =
      .ok neigh)
    (hne : neigh ≠ [])
    (hR : getR (toUpperStr (firstCurrencyCodeSorted input.currencies)) =
      .response 200 (.parsed rr))
    (hres : rr.result = "" ∨ rr.result = "success") :
    ∃ rates, (ExchangeHandler ⟨getC, getR⟩ "GET" path).1 =
      ⟨200, .exchange ⟨input.name.common,
        toUpperStr (firstCurrencyCodeSorted input.currencies), rates⟩⟩ ∧
      ∀ c r, (c, r) ∈ rates ↔ (c ∈ neigh ∧ rr.rates.lookup c = some r) := by
  refine ⟨neigh.filterMap fun ccy => (rr.rates.lookup ccy).map fun v => (ccy, v),
    ?_, ?_⟩
  · rw [ExchangeHandler_eval_success getC getR path input cs neigh rr hv hC hb1 hb2
      hcol hne hR hres]
  · intro c r
    simp only [List.mem_filterMap]
    constructor
    · rintro ⟨a, ha, hfa⟩
      cases hlk : rr.rates.lookup a with
      | none => rw [hlk] at hfa; simp at hfa
      | some v =>
        rw [hlk] at hfa
        simp at hfa
        rcases hfa with ⟨rfl, rfl⟩
        exact ⟨ha, hlk⟩
    · rintro ⟨hc, hlk⟩
      exact ⟨c, hc, by simp [hlk]⟩

/-- Witness for claim C7 on the sample data of the spec: Norway with
neighbour currencies SEK, EUR, RUB and a rate set quoting only SEK and EUR
produces a mapping with exactly SEK and EUR. -/
theorem ExchangeHandler_filters_rates_witness :
    ∃ rates, (ExchangeHandler ⟨sampleCountryOracle, sampleRatesOracle⟩ "GET"
      "/countryinfo/v1/exchange/no").1 =
      ⟨200, .exchange ⟨sampleNorway.name.common,
        toUpperStr (firstCurrencyCodeSorted sampleNorway.currencies), rates⟩⟩ ∧
      ∀ c r, (c, r) ∈ rates ↔
        (c ∈ ["SEK", "EUR", "RUB"] ∧
          [("SEK", (10 : Rat)), ("EUR", (11 : Rat))].lookup c = some r) :=
  ExchangeHandler_filters_rates sampleCountryOracle sampleRatesOracle
    "/countryinfo/v1/exchange/no" sampleNorway [] ["SEK", "EUR", "RUB"]
    ⟨"success", [("SEK", 10), ("EUR", 11)]⟩ (by decide) (by decide) (by decide)
    (by decide) (by rfl) (by decide) (by decide) (Or.inr rfl)

/-- Counterexample to claim C8 as stated: with an upstream currency-map key
a1b the exchange endpoint outputs the base currency A1B, which is 3 bytes
long but not a string of uppercase letters. -/
theorem ExchangeHandler_output_code_not_letters :
    (ExchangeHandler ⟨fun _ => .response 200 (.arr [sampleOddCurrency]),
      sampleRatesOracle⟩ "GET" "/countryinfo/v1/exchange/xx").1.body =
      .exchange ⟨"Oddland", "A1B", []⟩ ∧
    ¬ (∀ c ∈ ("A1B" : String).data, 'A' ≤ c ∧ c ≤ 'Z') := by
  constructor
  · decide
  · decide

/-- Claim C8, amended: every currency code appearing in the output of the
exchange endpoint (the base currency and every key of the exchange-rates
mapping) is exactly 3 bytes long and contains no lowercase ASCII letter (it
is the uppercased form of an upstream key, which need not consist of
letters), and the base currency of the input country never appears in the
accumulated neighbour-currency set nor as a key of the exchange-rates
mapping, even when a neighbour shares that currency. -/
theorem ExchangeHandler_output_codes (up : Upstream) (method path : String)
    (e : exchangeResponse)
    (he : (ExchangeHandler up method path).1.body = .exchange e) :
    (e.baseCurrency.utf8ByteSize = 3 ∧
      ∀ c ∈ e.baseCurrency.data, ¬ ('a' ≤ c ∧ c ≤ 'z')) ∧
    (∀ p ∈ e.exchangeRates, p.1.utf8ByteSize = 3 ∧
      (∀ c ∈ p.1.data, ¬ ('a' ≤ c ∧ c ≤ 'z')) ∧ p.1 ≠ e.baseCurrency) ∧
    (∀ (get : String → HTTPResult CountryBody) (base : String)
      (borders neigh : List String),
      (collectNeighbourCurrencies get base borders []).1 = .ok neigh →
      base ∉ neigh) := by
  obtain ⟨input, cs, neigh, hg, hcountry, hbase, hbne, hbsize, hcol, hkeys⟩ :=
    ExchangeHandler_exchange_inv up method path e he
  refine ⟨⟨hbsize, ?_⟩, ?_, ?_⟩
  · rw [hbase]
    exact toUpperStr_not_az _
  · intro p hp
    have hpn := hkeys p hp
    have hmem := collect_ok_mem up.getCountry e.baseCurrency input.borders []
      neigh hcol p.1 hpn
    rcases hmem with h | ⟨hsize, hneq, s, hs⟩
    · simp at h
    · refine ⟨hsize, ?_, hneq⟩
      rw [hs]
      exact toUpperStr_not_az s
  · intro get base borders neigh2 hok hmem
    have := collect_ok_mem get base borders [] neigh2 hok base hmem
    rcases this with h | ⟨-, hneq, -⟩
    · simp at h
    · exact hneq rfl

/-- Witness for the amended claim C8 on the sample Norway exchange. -/
theorem ExchangeHandler_output_codes_witness :
    (("NOK" : String).utf8ByteSize = 3 ∧
      ∀ c ∈ ("NOK" : String).data, ¬ ('a' ≤ c ∧ c ≤ 'z')) ∧
    (∀ p ∈ [("SEK", (10 : Rat)), ("EUR", (11 : Rat))], p.1.utf8ByteSize = 3 ∧
      (∀ c ∈ p.1.data, ¬ ('a' ≤ c ∧ c ≤ 'z')) ∧ p.1 ≠ "NOK") ∧
    (∀ (get : String → HTTPResult CountryBody) (base : String)
      (borders neigh : List String),
      (collectNeighbourCurrencies get base borders []).1 = .ok neigh →
      base ∉ neigh) :=
  ExchangeHandler_output_codes ⟨sampleCountryOracle, sampleRatesOracle⟩ "GET"
    "/countryinfo/v1/exchange/no"
    ⟨"Norway", "NOK", [("SEK", 10), ("EUR", 11)]⟩ (by decide)

end CountryInfo
